import Mathlib

/-!
# Verification of the weather application and QR-code generator

This file gives a shallow embedding in Lean 4 of the core logic of the two
desktop utilities in this repository:

* the weather application (`Weather Appp.py`): the 5-day forecast aggregator
  (`WeatherClient.forecast_5day`), the alert resolver (`WeatherClient.alerts`),
  the geocoder (`WeatherClient.geocode`), the IP locator
  (`WeatherClient.ip_location`) and the background task runner
  (`FetchThread.run` together with the task built in `WeatherApp.on_search`);
* the QR-code generator (`qr.py`): the file-name conflict resolution loop of
  `QRCodeGenerator.save_qr`.

Python floats are modelled as rationals (`ℚ`), machine integers as `Nat`/`ℤ`,
JSON payloads as explicit structures with `Option` fields for optional keys,
and exceptions as `Except`/`Option` results.  Each embedded definition carries
a comment pointing at the Python code it mirrors.
-/

/-! ## Python library models

Models of the Python built-ins the weather code relies on: `round` (banker's
rounding: round half to even), `min`/`max` on a non-empty list, `str.title`,
and `collections.Counter.most_common(1)` (most frequent element, ties broken
by first insertion into the counter, i.e. first occurrence in the iterated
list). -/

/-- Python's built-in `round` on a float, modelled on `ℚ`: round to the
nearest integer, ties to the even integer (banker's rounding). -/
def pythonRound (q : ℚ) : ℤ :=
  if q - ⌊q⌋ < 1/2 then ⌊q⌋
  else if 1/2 < q - ⌊q⌋ then ⌊q⌋ + 1
  else if 2 ∣ ⌊q⌋ then ⌊q⌋ else ⌊q⌋ + 1

/-- Rounding to the nearest integer with ties away from zero.  This is the
rounding rule named by the specification; it is *not* what Python's `round`
does, and is defined here only to state that divergence. -/
def roundAway (q : ℚ) : ℤ :=
  if q < 0 then -⌊-q + 1/2⌋ else ⌊q + 1/2⌋

/-- Python's `min` over a list (`min(xs)`); Python raises on an empty list,
which never happens at the call sites embedded here, so the empty case is
given the junk value `0`. -/
def pyMin : List ℚ → ℚ
  | [] => 0
  | x :: xs => xs.foldl min x

/-- Python's `max` over a list (`max(xs)`); junk value `0` on `[]`. -/
def pyMax : List ℚ → ℚ
  | [] => 0
  | x :: xs => xs.foldl max x

/-- One step of Python's `str.title`: the boolean records whether the
previous character was alphabetic (i.e. whether we are inside a word). -/
def titleMap : Bool → List Char → List Char
  | _, [] => []
  | insideWord, c :: cs =>
    (if c.isAlpha then (if insideWord then c.toLower else c.toUpper) else c)
      :: titleMap c.isAlpha cs

/-- Python's `str.title()`: uppercase every letter that starts a maximal
alphabetic run, lowercase the other letters, leave non-letters alone. -/
def titleCase (s : String) : String :=
  String.mk (titleMap false s.data)

/-- The distinct elements of `l` in order of first occurrence, with `seen`
the elements already emitted.  This is the key order of a Python dict (or
`Counter`) populated by inserting the elements of `l` left to right. -/
def firstSeenAux {α : Type} [DecidableEq α] (seen : List α) : List α → List α
  | [] => []
  | a :: as => if a ∈ seen then firstSeenAux seen as
               else a :: firstSeenAux (a :: seen) as

/-- Distinct elements of `l` in order of first occurrence. -/
def firstSeen {α : Type} [DecidableEq α] (l : List α) : List α :=
  firstSeenAux [] l

/-- The first element of `cs` whose `cnt`-value is maximal (later elements
win only with a strictly greater value).  This is how Python's `max(it,
key=f)` — used by `heapq.nlargest(1, ...)` inside `Counter.most_common(1)` —
breaks ties: in favour of the earliest element. -/
def pickFirstMax {α : Type} (cnt : α → Nat) : List α → Option α
  | [] => none
  | c :: cs =>
    match pickFirstMax cnt cs with
    | none => some c
    | some b => if cnt c < cnt b then some b else some c

/-- `Counter(l).most_common(1)[0][0]` (as an `Option` so that the empty list
needs no exception): the most frequent element of `l`, ties broken in favour
of the element first inserted into the counter.  `Counter` iterates its keys
in first-insertion order and `most_common(1)` takes the first key of maximal
count, which is also the first element of maximal count in `l` itself
(duplicates of a value all carry the same count). -/
def most_common1 {α : Type} [DecidableEq α] (l : List α) : Option α :=
  pickFirstMax (fun a => l.count a) l

/-! ## The forecast aggregator

Embedding of the grouping-and-summarising step of
`WeatherClient.forecast_5day` (part_000 lines 68–100), the code that runs
after the HTTP response has been received and its `cod` field validated.

A raw 3-hour forecast sample (one entry of `j["list"]`) is modelled by the
fields the aggregator reads: the Unix timestamp `item["dt"]`, the slot
temperatures `item["main"]["temp_min"]`/`["temp_max"]`, and the icon and
description of `item["weather"][0]` (the provider always populates
`weather` with at least one entry; an empty `weather` list would raise in the
Python code and is outside this model). -/

structure Sample where
  dt : Nat
  temp_min : ℚ
  temp_max : ℚ
  icon : String
  description : String
deriving DecidableEq

/-- The date bucket key of a sample:
`datetime.utcfromtimestamp(item["dt"]).strftime("%Y-%m-%d")`.
The formatted string is a strictly monotone injective function of the UTC
day number `dt / 86400`, and the code only ever groups by the key and sorts
by it lexicographically (which agrees with the numeric order of the day
number for every timestamp `utcfromtimestamp` accepts), so the key is
modelled by the day number itself. -/
def dateKey (s : Sample) : Nat := s.dt / 86400

/-- `datetime.utcfromtimestamp(item["dt"]).hour`: the UTC hour of day. -/
def hourOf (s : Sample) : Nat := s.dt % 86400 / 3600

/-- One aggregated day as built by `forecast_5day` (the dict with keys
`date`, `tmin`, `tmax`, `icon`, `desc`). -/
structure DayOut where
  date : Nat
  tmin : ℤ
  tmax : ℤ
  icon : String
  desc : String
deriving DecidableEq

/-- `buckets[date_key]`: the samples of `l` falling on day `k`, in input
order (the order in which the Python loop appends them). -/
def bucket (l : List Sample) (k : Nat) : List Sample :=
  l.filter (fun s => dateKey s = k)

/-- The keys of `buckets` in Python dict iteration order: first-seen order
of the date keys of `l`. -/
def groupKeys (l : List Sample) : List Nat :=
  firstSeen (l.map dateKey)

/-- The body of the `for date_key, items in buckets.items()` loop: one
summarised day for the group `items` of day `k`. -/
def summarize (k : Nat) (items : List Sample) : DayOut :=
  let noon := items.find? (fun s => hourOf s = 12)
  { date := k
    tmin := pythonRound (pyMin (items.map (fun s => s.temp_min)))
    tmax := pythonRound (pyMax (items.map (fun s => s.temp_max)))
    icon :=
      match noon with
      | some s => s.icon
      | none => (most_common1 (items.map (fun s => s.icon))).getD ""
    desc :=
      match noon with
      | some s => titleCase s.description
      | none => (most_common1 (items.map (fun s => titleCase s.description))).getD "" }

/-- Sort key of `days.sort(key=lambda d: d["date"])`. -/
def dayLE (a b : DayOut) : Prop := a.date ≤ b.date

instance : DecidableRel dayLE :=
  fun a b => inferInstanceAs (Decidable (a.date ≤ b.date))

instance : IsTotal DayOut dayLE :=
  ⟨fun a b => Nat.le_total a.date b.date⟩

instance : IsTrans DayOut dayLE :=
  ⟨fun _ _ _ h1 h2 => Nat.le_trans h1 h2⟩

/-- The aggregation step of `WeatherClient.forecast_5day`: group the samples
by UTC date, summarise each group, sort by date, keep the first five.
(`days.sort` is a stable sort, but the sort keys — the bucket dates — are
pairwise distinct, so any correct sort produces the same list; the embedding
uses insertion sort.) -/
def forecast_5day (l : List Sample) : List DayOut :=
  (((groupKeys l).map (fun k => summarize k (bucket l k))).insertionSort dayLE).take 5

/-! ## The alert resolver

Embedding of `WeatherClient.alerts` (part_000 lines 103–129).  A One Call
HTTP attempt is modelled by `Option (Nat × RespBody α)`:

* `none` — the `requests.get` / `r.json()` call raised (network error,
  timeout, malformed JSON body); the `except Exception: pass` swallows it;
* `some (status, body)` — a response with status code `status` whose parsed
  JSON body is `body`.

The resolver only inspects whether the body is a dict and what its
`"alerts"` entry is, so the body is modelled accordingly; an `"alerts"`
value that is neither missing, `null`/false-y, nor a list does not occur in
the provider's payloads and is out of scope.  The element type of the alert
list is left as a parameter `α`. -/

inductive AlertsField (α : Type) where
  | absent
  | null
  | list (l : List α)
deriving DecidableEq

inductive RespBody (α : Type) where
  | notDict
  | dict (alerts : AlertsField α)
deriving DecidableEq

/-- One `try:` block of `WeatherClient.alerts` (either endpoint; both run the
same checks).  Result `some v` means the block executed a `return v`
(`v = some l` returning `j["alerts"]`, `v = some []` returning `[]`);
`none` means control fell through to the code after the block.

* `r.status_code == 200` guards everything; a non-200 response falls through.
* `isinstance(j, dict) and j.get("alerts")` returns `j["alerts"]` when the
  alerts value is a non-empty list.
* `isinstance(j, dict) and j.get("alerts", []) == []` returns `[]` when the
  alerts value is the empty list **or when the key is absent** (then `.get`
  supplies the default `[]`, which equals `[]`).
* a dict whose `"alerts"` is `null` (false-y but `!= []`), a non-dict body,
  and a raised exception all fall through. -/
def tryOneCall {α : Type} (r : Option (Nat × RespBody α)) : Option (Option (List α)) :=
  match r with
  | none => none
  | some (status, body) =>
    if status = 200 then
      match body with
      | RespBody.notDict => none
      | RespBody.dict AlertsField.absent => some (some [])
      | RespBody.dict AlertsField.null => none
      | RespBody.dict (AlertsField.list l) => some (some l)
    else none

/-- `WeatherClient.alerts`: try the 3.0 One Call endpoint, fall back to the
2.5 endpoint, and return `None` (modelled `none`) when neither attempt
produced a definite answer.  `some l` with `l ≠ []` is the `Present` state,
`some []` the `Empty` state, `none` the `Unavailable` state. -/
def alertsResolve {α : Type} (primary fallback : Option (Nat × RespBody α)) :
    Option (List α) :=
  match tryOneCall primary with
  | some v => v
  | none =>
    match tryOneCall fallback with
    | some v => v
    | none => none

/-! ## The geocoder

Embedding of `WeatherClient.geocode` (part_000 lines 43–50), starting from
the parsed JSON array `items` of the geocoding endpoint (transport errors
raised by `requests.get`/`raise_for_status` propagate before this code runs
and are outside the claim).  A candidate is modelled by the fields the code
reads: `lat`, `lon`, `name` (`g.get('name','')`, so a missing name is the
empty string) and the optional `country`. -/

structure GeoCandidate where
  lat : ℚ
  lon : ℚ
  name : String
  country : Option String
deriving DecidableEq

/-- `WeatherClient.geocode` after the response is parsed: raise
`RuntimeError("Location not found.")` on an empty result array, otherwise
return the first candidate's coordinates and the label
`f"{g.get('name','')}{', ' + g.get('country','') if g.get('country') else ''}"`
— the country part is appended only when `g.get('country')` is truthy
(present and non-empty). -/
def geocode (items : List GeoCandidate) : Except String (ℚ × ℚ × String) :=
  match items with
  | [] => Except.error "Location not found."
  | g :: _ =>
    Except.ok (g.lat, g.lon,
      g.name ++ (match g.country with
                 | none => ""
                 | some c => if c = "" then "" else ", " ++ c))

/-! ## The IP locator

Embedding of `WeatherClient.ip_location` (part_000 lines 131–147).  The
HTTP attempt is `none` when `requests.get` raised; otherwise
`some (status, body)` where `body = none` models a `r.json()` that raised
(malformed payload) and `some d` a parsed JSON object with the optional
fields the code reads. -/

structure IpBody where
  lat : Option ℚ
  lon : Option ℚ
  city : Option String
  country : Option String
  timezone : Option String
deriving DecidableEq

/-- The dict returned by a successful `ip_location`. -/
structure IpLoc where
  lat : ℚ
  lon : ℚ
  city : String
  country : String
  timezone : String
deriving DecidableEq

/-- `WeatherClient.ip_location`: every failure path of the `try:` block ends
in `return None` — a raised request (`none`), `raise_for_status` on a 4xx/5xx
status, a body that fails to parse, a missing `lat`
(`data.get("lat") is None`), or a missing `lon` (`data["lon"]` raises
`KeyError`, caught by the blanket `except`).  On success it builds the dict
with `data.get("city") or "My location"` (false-y city replaced),
`data.get("country", "")` and `data.get("timezone", "UTC")`. -/
def ip_location (r : Option (Nat × Option IpBody)) : Option IpLoc :=
  match r with
  | none => none
  | some (status, obody) =>
    if 400 ≤ status then none
    else
      match obody with
      | none => none
      | some d =>
        match d.lat with
        | none => none
        | some la =>
          match d.lon with
          | none => none
          | some lo =>
            some { lat := la
                   lon := lo
                   city := match d.city with
                           | none => "My location"
                           | some c => if c = "" then "My location" else c
                   country := d.country.getD ""
                   timezone := d.timezone.getD "UTC" }

/-! ## The background task runner

Embedding of `FetchThread.run` (part_000 lines 164–169) and the fetch task of
`WeatherApp.on_search` (lines 285–298).  A Python callable that may raise is
an `Except String` value; the thread body emits exactly one Qt signal, either
`result` with the payload or `error` with `str(e)`.  The emitted signals are
collected in a list so that "exactly one" is expressible. -/

inductive Sig (α : Type) where
  | result (payload : α)
  | errorMsg (msg : String)
deriving DecidableEq

/-- `FetchThread.run`: run the task; on success emit one `result` signal, on
any exception emit one `error` signal carrying the message. -/
def fetchThreadRun {α : Type} (fn : Except String α) : List (Sig α) :=
  match fn with
  | Except.ok res => [Sig.result res]
  | Except.error e => [Sig.errorMsg e]

/-- The `task()` closure of `WeatherApp.on_search`: geocode, then current
conditions, then forecast, then alerts, each step a call that may raise and
each later call consuming the geocoded location; the results are packed into
one payload dict.  The four step types are parameters since the claim is
about control flow, not payload contents. -/
def on_search_task {L C F A : Type} (geo : Except String L)
    (current : L → Except String C) (forecast : L → Except String F)
    (alertsStep : L → Except String A) : Except String (L × C × F × A) :=
  match geo with
  | Except.error e => Except.error e
  | Except.ok g =>
    match current g with
    | Except.error e => Except.error e
    | Except.ok c =>
      match forecast g with
      | Except.error e => Except.error e
      | Except.ok f =>
        match alertsStep g with
        | Except.error e => Except.error e
        | Except.ok a => Except.ok (g, c, f, a)

/-! ## The QR save path

Embedding of the file-name conflict loop of `QRCodeGenerator.save_qr`
(qr.py lines 450–484).  The filesystem is modelled as the finite list
`occupied` of paths for which `os.path.exists` is true; `os.path.join` of the
directory and file name concatenates with a `/` separator; Python's
`str(counter)` renders the counter in decimal. -/

/-- One decimal digit character (`'0' + d` for `d < 10`). -/
def decChar : Nat → Char
  | 0 => '0' | 1 => '1' | 2 => '2' | 3 => '3' | 4 => '4'
  | 5 => '5' | 6 => '6' | 7 => '7' | 8 => '8' | _ => '9'

/-- Python's `str(n)` for a natural number: decimal digits, most significant
first (`Nat.digits` is little-endian, hence the `reverse`). -/
def decStr (n : Nat) : String :=
  if n = 0 then "0" else String.mk (((Nat.digits 10 n).map decChar).reverse)

/-- The candidate path tried at loop counter `n`:
`os.path.join(dir, f"{base}.{ext}")` initially (`n = 0`) and
`os.path.join(dir, f"{base}_{counter}.{ext}")` for counter `n ≥ 1`. -/
def qrPath (dir base ext : String) (n : Nat) : String :=
  if n = 0 then dir ++ "/" ++ base ++ "." ++ ext
  else dir ++ "/" ++ base ++ "_" ++ decStr n ++ "." ++ ext

/-- The `while os.path.exists(file_path):` loop of `save_qr`, with the
candidate index made explicit: if the candidate `n` exists, try `n + 1`.
The Python loop terminates because only finitely many paths exist; the
explicit fuel (spent one unit per collision) makes that measure visible, and
`save_qr_path` below supplies enough fuel for the loop always to finish. -/
def save_qr_go (occupied : List String) (dir base ext : String) :
    Nat → Nat → Option String
  | 0, _ => none
  | fuel + 1, n =>
    if qrPath dir base ext n ∈ occupied then
      save_qr_go occupied dir base ext fuel (n + 1)
    else some (qrPath dir base ext n)

/-- The path `QRCodeGenerator.save_qr` saves to: the first candidate path,
starting from `base.ext` and then `base_1.ext`, `base_2.ext`, …, that does
not already exist. -/
def save_qr_path (occupied : List String) (dir base ext : String) : Option String :=
  save_qr_go occupied dir base ext (occupied.length + 1) 0

/-! ## Claim C2: the alert resolver's three outcomes -/

/-- The attempt `r` responded successfully (HTTP 200) with a dict whose
`"alerts"` entry is the non-empty list `l`. -/
def succNonEmpty {α : Type} (r : Option (Nat × RespBody α)) (l : List α) : Prop :=
  r = some (200, RespBody.dict (AlertsField.list l)) ∧ l ≠ []

/-- The attempt `r` responded successfully with a dict that either explicitly
carries an empty alerts list or lacks the `"alerts"` key altogether. -/
def succEmptyOrMissing {α : Type} (r : Option (Nat × RespBody α)) : Prop :=
  r = some (200, RespBody.dict (AlertsField.list [])) ∨
  r = some (200, RespBody.dict AlertsField.absent)

/-- The attempt `r` was inconclusive: the request raised, the status was not
200, the body was not a dict, or the alerts entry was `null`-like. -/
def attemptInconclusive {α : Type} (r : Option (Nat × RespBody α)) : Prop :=
  r = none ∨
  (∃ status body, r = some (status, body) ∧ status ≠ 200) ∨
  (∃ status, r = some (status, RespBody.notDict)) ∨
  (∃ status, r = some (status, RespBody.dict AlertsField.null))

theorem tryOneCall_eq_none_iff {α : Type} (r : Option (Nat × RespBody α)) :
    tryOneCall r = none ↔ attemptInconclusive r := by
  rcases r with _ | ⟨status, body⟩
  · simp [tryOneCall, attemptInconclusive]
  · by_cases hs : status = 200
    · subst hs
      rcases body with _ | f
      · simp [tryOneCall, attemptInconclusive]
      · rcases f with _ | _ | l <;> simp [tryOneCall, attemptInconclusive]
    · simp [tryOneCall, hs, attemptInconclusive]

theorem tryOneCall_eq_ret_iff {α : Type} (r : Option (Nat × RespBody α))
    (l : List α) :
    tryOneCall r = some (some l) ↔
      (r = some (200, RespBody.dict (AlertsField.list l)) ∨
       (l = [] ∧ r = some (200, RespBody.dict AlertsField.absent))) := by
  rcases r with _ | ⟨status, body⟩
  · simp [tryOneCall]
  · by_cases hs : status = 200
    · subst hs
      rcases body with _ | f
      · simp [tryOneCall]
      · rcases f with _ | _ | l' <;>
          simp [tryOneCall, eq_comm]
    · simp [tryOneCall, hs, Ne.symm hs]

theorem tryOneCall_ne_some_none {α : Type} (r : Option (Nat × RespBody α)) :
    tryOneCall r ≠ some none := by
  rcases r with _ | ⟨status, body⟩
  · simp [tryOneCall]
  · by_cases hs : status = 200
    · subst hs
      rcases body with _ | f
      · simp [tryOneCall]
      · rcases f with _ | _ | l' <;> simp [tryOneCall]
    · simp [tryOneCall, hs]

theorem not_inconclusive_of_ret {α : Type} (r : Option (Nat × RespBody α))
    (v : Option (List α)) (h : tryOneCall r = some v) : ¬ attemptInconclusive r := by
  rw [← tryOneCall_eq_none_iff]
  simp [h]


theorem ret_nonempty_iff {α : Type} (r : Option (Nat × RespBody α)) (l : List α)
    (hl : l ≠ []) : tryOneCall r = some (some l) ↔ succNonEmpty r l := by
  rw [tryOneCall_eq_ret_iff]
  simp [succNonEmpty, hl]

theorem ret_empty_iff {α : Type} (r : Option (Nat × RespBody α)) :
    tryOneCall r = some (some []) ↔ succEmptyOrMissing r := by
  rw [tryOneCall_eq_ret_iff]
  simp [succEmptyOrMissing]

/-- C2 (amended): `alertsResolve` returns `Present(l)` (`some l` with
`l ≠ []`) exactly when the first conclusive attempt — the primary, or the
fallback after an inconclusive primary — is a 200 dict response carrying the
non-empty alerts list `l`; it returns `Empty` (`some []`) exactly when the
first conclusive attempt is a 200 dict response whose alerts entry is the
empty list **or is absent altogether**; and it returns `Unavailable`
(`none`) exactly when both attempts are inconclusive (request raised,
non-200 status, non-dict body, or a `null`-like alerts entry).  The three
outcomes are distinct `Option` values, never conflated. -/
theorem alerts_spec {α : Type} (p s : Option (Nat × RespBody α)) :
    (∀ l, l ≠ [] →
      (alertsResolve p s = some l ↔
        (succNonEmpty p l ∨ (attemptInconclusive p ∧ succNonEmpty s l)))) ∧
    (alertsResolve p s = some [] ↔
      (succEmptyOrMissing p ∨ (attemptInconclusive p ∧ succEmptyOrMissing s))) ∧
    (alertsResolve p s = none ↔
      (attemptInconclusive p ∧ attemptInconclusive s)) := by
  rcases htp : tryOneCall p with _ | v
  · have hip : attemptInconclusive p := (tryOneCall_eq_none_iff p).mp htp
    have hnp : ∀ l, ¬ succNonEmpty p l := by
      intro l hh
      rcases hh with ⟨hr, hl⟩
      have := (ret_nonempty_iff p l hl).mpr ⟨hr, hl⟩
      rw [htp] at this
      exact Option.noConfusion this
    have hnpe : ¬ succEmptyOrMissing p := by
      intro hh
      have := (ret_empty_iff p).mpr hh
      rw [htp] at this
      exact Option.noConfusion this
    rcases hts : tryOneCall s with _ | w
    · have his : attemptInconclusive s := (tryOneCall_eq_none_iff s).mp hts
      have hns : ∀ l, ¬ succNonEmpty s l := by
        intro l hh
        rcases hh with ⟨hr, hl⟩
        have := (ret_nonempty_iff s l hl).mpr ⟨hr, hl⟩
        rw [hts] at this
        exact Option.noConfusion this
      have hnse : ¬ succEmptyOrMissing s := by
        intro hh
        have := (ret_empty_iff s).mpr hh
        rw [hts] at this
        exact Option.noConfusion this
      have hres : alertsResolve p s = none := by
        simp [alertsResolve, htp, hts]
      refine ⟨fun l hl => ?_, ?_, ?_⟩
      · simp [hres, hnp l, hns l]
      · simp [hres, hnpe, hnse]
      · simp [hres, hip, his]
    · rcases w with _ | ls
      · exact absurd hts (tryOneCall_ne_some_none s)
      · have hres : alertsResolve p s = some ls := by
          simp [alertsResolve, htp, hts]
        have hnis : ¬ attemptInconclusive s := not_inconclusive_of_ret s _ hts
        refine ⟨fun l hl => ?_, ?_, ?_⟩
        · have hsl : succNonEmpty s l ↔ ls = l := by
            rw [← ret_nonempty_iff s l hl, hts]
            simp
          simp [hres, hnp l, hip, hsl]
        · have hse : succEmptyOrMissing s ↔ ls = [] := by
            rw [← ret_empty_iff s, hts]
            simp
          simp [hres, hnpe, hip, hse]
        · simp [hres, hnis]
  · rcases v with _ | lp
    · exact absurd htp (tryOneCall_ne_some_none p)
    · have hres : alertsResolve p s = some lp := by
        simp [alertsResolve, htp]
      have hnip : ¬ attemptInconclusive p := not_inconclusive_of_ret p _ htp
      refine ⟨fun l hl => ?_, ?_, ?_⟩
      · have hpl : succNonEmpty p l ↔ lp = l := by
          rw [← ret_nonempty_iff p l hl, htp]
          simp
        simp [hres, hpl, hnip]
      · have hpe : succEmptyOrMissing p ↔ lp = [] := by
          rw [← ret_empty_iff p, htp]
          simp
        simp [hres, hpe, hnip]
      · simp [hres, hnip]

/-- C2 counterexample to the claim as stated: a 200 dict response from which
the `"alerts"` key is entirely absent is *not* an explicit empty alerts
collection, yet the resolver classifies it as `Empty` (`some []`) rather
than `Unavailable` (`none`), because `j.get("alerts", []) == []` also
succeeds when the key is missing (`.get` supplies the `[]` default). -/
theorem alerts_absent_counterexample :
    alertsResolve (some (200, RespBody.dict (AlertsField.absent : AlertsField Nat)))
        (some (200, RespBody.dict AlertsField.absent)) = some [] ∧
    (AlertsField.absent : AlertsField Nat) ≠ AlertsField.list [] ∧
    (some ([] : List Nat) ≠ (none : Option (List Nat))) := by
  refine ⟨rfl, ?_, ?_⟩ <;> simp

/-- Witness for `alerts_spec`: a primary 200 dict response with the
non-empty alerts list `[5]` resolves to `Present [5]`. -/
theorem alerts_spec_witness :
    alertsResolve (some (200, RespBody.dict (AlertsField.list [5])))
      (none : Option (Nat × RespBody Nat)) = some [5] :=
  ((alerts_spec (some (200, RespBody.dict (AlertsField.list [5]))) none).1
      [5] (by simp)).mpr (Or.inl ⟨rfl, by simp⟩)

/-! ## Claim C7: geocoding -/

/-- C7: `geocode` raises `RuntimeError("Location not found.")` exactly on an
empty result array; on a non-empty array it returns the first candidate's
coordinates with the display label "name, country" when a non-empty country
is present, and just "name" when the country is absent. -/
theorem geocode_spec (items : List GeoCandidate) :
    (items = [] → geocode items = Except.error "Location not found.") ∧
    (∀ g rest, items = g :: rest →
      (∀ c, g.country = some c → c ≠ "" →
        geocode items = Except.ok (g.lat, g.lon, g.name ++ ", " ++ c)) ∧
      (g.country = none → geocode items = Except.ok (g.lat, g.lon, g.name))) := by
  constructor
  · rintro rfl
    rfl
  · rintro g rest rfl
    constructor
    · rintro c hc hne
      simp [geocode, hc, hne, String.append_assoc]
    · rintro hnone
      simp [geocode, hnone]

/-- Witness for `geocode_spec`: the claim's own example, a single candidate
named "Paris" with country "FR". -/
theorem geocode_spec_witness :
    geocode [⟨(487 : ℚ)/10, (23 : ℚ)/10, "Paris", some "FR"⟩] =
      Except.ok ((487 : ℚ)/10, (23 : ℚ)/10, "Paris, FR") :=
  ((geocode_spec [⟨(487 : ℚ)/10, (23 : ℚ)/10, "Paris", some "FR"⟩]).2
      ⟨(487 : ℚ)/10, (23 : ℚ)/10, "Paris", some "FR"⟩ [] rfl).1 "FR" rfl
    (by simp)

/-! ## Claim C8: IP geolocation is best-effort -/

/-- C8: every failure mode of `ip_location` — the request raised (`none`),
an error status (`raise_for_status` on 4xx/5xx), a body that failed to
parse, or a payload missing `lat` or `lon` — yields `None`; no exception
escapes (the embedding is a total function into `Option`, mirroring the
blanket `except Exception: return None`). -/
theorem ip_location_failure (r : Option (Nat × Option IpBody))
    (h : r = none ∨
         (∃ status body, r = some (status, body) ∧ 400 ≤ status) ∨
         (∃ status, r = some (status, none)) ∨
         (∃ status d, r = some (status, some d) ∧ (d.lat = none ∨ d.lon = none))) :
    ip_location r = none := by
  rcases h with rfl | ⟨status, body, rfl, hs⟩ | ⟨status, rfl⟩ | ⟨status, d, rfl, hd⟩
  · rfl
  · simp [ip_location, hs]
  · by_cases h4 : 400 ≤ status <;> simp [ip_location, h4]
  · by_cases h4 : 400 ≤ status
    · simp [ip_location, h4]
    · rcases hd with hlat | hlon
      · simp [ip_location, h4, hlat]
      · rcases hl : d.lat with _ | la
        · simp [ip_location, h4, hl]
        · simp [ip_location, h4, hl, hlon]

/-- Witness for `ip_location_failure`: a network error (the request raised)
yields `None`. -/
theorem ip_location_failure_witness : ip_location none = none :=
  ip_location_failure none (Or.inl rfl)

/-! ## Claim C6: the fetch sequence is atomic -/

/-- C6: if any step of the fetch task raises — the geocode, the
current-conditions call, the forecast call or the alerts call — then the
thread body emits exactly one signal, an `error` signal with a message, and
in particular no `result` payload (partial or otherwise) is ever emitted. -/
theorem fetch_atomic {L C F A : Type} (geo : Except String L)
    (current : L → Except String C) (forecast : L → Except String F)
    (alertsStep : L → Except String A)
    (h : (∃ e, geo = Except.error e) ∨
         ∃ g, geo = Except.ok g ∧
           ((∃ e, current g = Except.error e) ∨
            (∃ e, forecast g = Except.error e) ∨
            (∃ e, alertsStep g = Except.error e))) :
    ∃ msg, fetchThreadRun (on_search_task geo current forecast alertsStep) =
      [Sig.errorMsg msg] := by
  rcases h with ⟨e, rfl⟩ | ⟨g, rfl, hsteps⟩
  · exact ⟨e, rfl⟩
  · rcases hc : current g with e | c
    · exact ⟨e, by simp [on_search_task, fetchThreadRun, hc]⟩
    · rcases hf : forecast g with e | f
      · exact ⟨e, by simp [on_search_task, fetchThreadRun, hc, hf]⟩
      · rcases ha : alertsStep g with e | a
        · exact ⟨e, by simp [on_search_task, fetchThreadRun, hc, hf, ha]⟩
        · exfalso
          rcases hsteps with ⟨e, he⟩ | ⟨e, he⟩ | ⟨e, he⟩ <;> simp_all

/-- Witness for `fetch_atomic`: a task whose current-conditions step raises
"boom" emits exactly the one error signal. -/
theorem fetch_atomic_witness :
    ∃ msg, fetchThreadRun (on_search_task (Except.ok (0 : Nat))
      (fun _ => (Except.error "boom" : Except String Nat))
      (fun _ => (Except.ok 0 : Except String Nat))
      (fun _ => (Except.ok 0 : Except String Nat))) = [Sig.errorMsg msg] :=
  fetch_atomic (Except.ok 0) (fun _ => Except.error "boom")
    (fun _ => Except.ok 0) (fun _ => Except.ok 0)
    (Or.inr ⟨0, rfl, Or.inl ⟨"boom", rfl⟩⟩)

/-! ## Structure of the aggregated forecast -/

theorem mem_firstSeenAux {α : Type} [DecidableEq α] (x : α) :
    ∀ (l seen : List α), x ∈ firstSeenAux seen l ↔ (x ∈ l ∧ x ∉ seen)
  | [], seen => by simp [firstSeenAux]
  | a :: as, seen => by
    by_cases ha : a ∈ seen
    · rw [firstSeenAux, if_pos ha, mem_firstSeenAux x as seen]
      constructor
      · rintro ⟨h1, h2⟩
        exact ⟨List.mem_cons_of_mem a h1, h2⟩
      · rintro ⟨h1, h2⟩
        rcases List.mem_cons.mp h1 with rfl | h1
        · exact absurd ha h2
        · exact ⟨h1, h2⟩
    · rw [firstSeenAux, if_neg ha]
      by_cases hxa : x = a
      · subst hxa
        simp [ha]
      · simp only [List.mem_cons, hxa, false_or]
        rw [mem_firstSeenAux x as (a :: seen)]
        simp [hxa]

theorem nodup_firstSeenAux {α : Type} [DecidableEq α] :
    ∀ (l seen : List α), (firstSeenAux seen l).Nodup
  | [], seen => by simp [firstSeenAux]
  | a :: as, seen => by
    by_cases ha : a ∈ seen
    · rw [firstSeenAux, if_pos ha]
      exact nodup_firstSeenAux as seen
    · rw [firstSeenAux, if_neg ha]
      refine List.Nodup.cons ?_ (nodup_firstSeenAux as (a :: seen))
      intro hmem
      exact ((mem_firstSeenAux a as (a :: seen)).mp hmem).2 (List.mem_cons_self a seen)

theorem mem_firstSeen {α : Type} [DecidableEq α] (x : α) (l : List α) :
    x ∈ firstSeen l ↔ x ∈ l := by
  rw [firstSeen, mem_firstSeenAux]
  simp

theorem nodup_firstSeen {α : Type} [DecidableEq α] (l : List α) :
    (firstSeen l).Nodup :=
  nodup_firstSeenAux l []

theorem mem_groupKeys (l : List Sample) (k : Nat) :
    k ∈ groupKeys l ↔ ∃ s ∈ l, dateKey s = k := by
  rw [groupKeys, mem_firstSeen]
  simp [eq_comm]

theorem bucket_ne_nil (l : List Sample) (k : Nat) (hk : k ∈ groupKeys l) :
    bucket l k ≠ [] := by
  rcases (mem_groupKeys l k).mp hk with ⟨s, hs, hsk⟩
  intro hnil
  have : s ∈ bucket l k := List.mem_filter.mpr ⟨hs, by simp [hsk]⟩
  rw [hnil] at this
  exact List.not_mem_nil s this

theorem summarize_date (k : Nat) (items : List Sample) :
    (summarize k items).date = k := rfl

theorem mem_forecast_5day (l : List Sample) (d : DayOut)
    (hd : d ∈ forecast_5day l) :
    d.date ∈ groupKeys l ∧ d = summarize d.date (bucket l d.date) := by
  have h1 : d ∈ ((groupKeys l).map (fun k => summarize k (bucket l k))).insertionSort dayLE :=
    List.take_sublist 5 _ |>.mem hd
  have h2 : d ∈ (groupKeys l).map (fun k => summarize k (bucket l k)) :=
    (List.mem_insertionSort dayLE).mp h1
  rcases List.mem_map.mp h2 with ⟨k, hk, hdk⟩
  have hdate : d.date = k := by
    rw [← hdk]
    exact summarize_date k (bucket l k)
  subst hdate
  exact ⟨hk, hdk.symm⟩

/-- The dates of the summarised (unsorted) day list are exactly the bucket
keys. -/
theorem days_map_date (l : List Sample) :
    ((groupKeys l).map (fun k => summarize k (bucket l k))).map (fun d => d.date)
      = groupKeys l := by
  rw [List.map_map]
  have hcomp : ((fun d : DayOut => d.date) ∘ (fun k => summarize k (bucket l k))) = id :=
    funext fun k => rfl
  rw [hcomp, List.map_id]

/-! ## Claim C1: at most five days, strictly increasing dates -/

/-- C1: the aggregation step of `forecast_5day` returns at most five daily
entries, and their dates are pairwise distinct and strictly increasing. -/
theorem forecast_5day_len_sorted (l : List Sample) :
    (forecast_5day l).length ≤ 5 ∧
    (forecast_5day l).Pairwise (fun a b => a.date < b.date) := by
  constructor
  · exact List.length_take_le 5 _
  · set days := (groupKeys l).map (fun k => summarize k (bucket l k)) with hdays
    have hsorted : (days.insertionSort dayLE).Pairwise dayLE :=
      List.sorted_insertionSort dayLE days
    have hperm : List.Perm (days.insertionSort dayLE) days :=
      List.perm_insertionSort dayLE days
    have hmapnd : ((days.insertionSort dayLE).map (fun d => d.date)).Nodup := by
      refine ((hperm.map (fun d => d.date)).nodup_iff).mpr ?_
      rw [hdays, days_map_date]
      exact nodup_firstSeen _
    have hne : (days.insertionSort dayLE).Pairwise (fun a b => a.date ≠ b.date) :=
      List.pairwise_map.mp hmapnd
    have hlt : (days.insertionSort dayLE).Pairwise (fun a b => a.date < b.date) :=
      (hsorted.and hne).imp (fun h => Nat.lt_of_le_of_ne h.1 h.2)
    exact hlt.sublist (List.take_sublist 5 _)

/-! ## Claim C3: group minima and maxima -/

theorem foldl_min_le_init : ∀ (xs : List ℚ) (a : ℚ), xs.foldl min a ≤ a
  | [], a => le_refl a
  | x :: xs, a => le_trans (foldl_min_le_init xs (min a x)) (min_le_left a x)

theorem foldl_min_le_mem : ∀ (xs : List ℚ) (a y : ℚ), y ∈ xs → xs.foldl min a ≤ y
  | [], _, y, hy => absurd hy (List.not_mem_nil y)
  | x :: xs, a, y, hy => by
    rcases List.mem_cons.mp hy with rfl | hy'
    · exact le_trans (foldl_min_le_init xs (min a y)) (min_le_right a y)
    · exact foldl_min_le_mem xs (min a x) y hy'

theorem foldl_min_mem : ∀ (xs : List ℚ) (a : ℚ),
    xs.foldl min a = a ∨ xs.foldl min a ∈ xs
  | [], a => Or.inl rfl
  | x :: xs, a => by
    rcases foldl_min_mem xs (min a x) with h | h
    · rcases min_choice a x with hm | hm
      · exact Or.inl (by rw [List.foldl_cons, h, hm])
      · refine Or.inr ?_
        rw [List.foldl_cons, h, hm]
        exact List.mem_cons_self x xs
    · exact Or.inr (List.mem_cons_of_mem x (by rw [List.foldl_cons]; exact h))

theorem foldl_max_ge_init : ∀ (xs : List ℚ) (a : ℚ), a ≤ xs.foldl max a
  | [], a => le_refl a
  | x :: xs, a => le_trans (le_max_left a x) (foldl_max_ge_init xs (max a x))

theorem foldl_max_ge_mem : ∀ (xs : List ℚ) (a y : ℚ), y ∈ xs → y ≤ xs.foldl max a
  | [], _, y, hy => absurd hy (List.not_mem_nil y)
  | x :: xs, a, y, hy => by
    rcases List.mem_cons.mp hy with rfl | hy'
    · exact le_trans (le_max_right a y) (foldl_max_ge_init xs (max a y))
    · exact foldl_max_ge_mem xs (max a x) y hy'

theorem foldl_max_mem : ∀ (xs : List ℚ) (a : ℚ),
    xs.foldl max a = a ∨ xs.foldl max a ∈ xs
  | [], a => Or.inl rfl
  | x :: xs, a => by
    rcases foldl_max_mem xs (max a x) with h | h
    · rcases max_choice a x with hm | hm
      · exact Or.inl (by rw [List.foldl_cons, h, hm])
      · refine Or.inr ?_
        rw [List.foldl_cons, h, hm]
        exact List.mem_cons_self x xs
    · exact Or.inr (List.mem_cons_of_mem x (by rw [List.foldl_cons]; exact h))

theorem pyMax_mem : ∀ (l : List ℚ), l ≠ [] → pyMax l ∈ l
  | [], h => absurd rfl h
  | x :: xs, _ => by
    rcases foldl_max_mem xs x with h | h
    · rw [pyMax, h]
      exact List.mem_cons_self x xs
    · rw [pyMax]
      exact List.mem_cons_of_mem x h

theorem pyMax_ge (l : List ℚ) (y : ℚ) (hy : y ∈ l) : y ≤ pyMax l := by
  match l, hy with
  | x :: xs, hy =>
    rcases List.mem_cons.mp hy with rfl | hy'
    · exact foldl_max_ge_init xs y
    · exact foldl_max_ge_mem xs x y hy'

theorem pyMin_mem : ∀ (l : List ℚ), l ≠ [] → pyMin l ∈ l
  | [], h => absurd rfl h
  | x :: xs, _ => by
    rcases foldl_min_mem xs x with h | h
    · rw [pyMin, h]
      exact List.mem_cons_self x xs
    · rw [pyMin]
      exact List.mem_cons_of_mem x h

theorem pyMin_le (l : List ℚ) (y : ℚ) (hy : y ∈ l) : pyMin l ≤ y := by
  match l, hy with
  | x :: xs, hy =>
    rcases List.mem_cons.mp hy with rfl | hy'
    · exact foldl_min_le_init xs y
    · exact foldl_min_le_mem xs x y hy'

/-- C3 (amended): for every entry of the aggregated forecast, `tmin` is the
minimum of the per-sample minimum temperatures of its date group and `tmax`
the maximum of the per-sample maximums, each rounded to the nearest integer
with ties rounded **to the even integer** (Python's `round` is banker's
rounding, not ties-away-from-zero). -/
theorem forecast_minmax (l : List Sample) (d : DayOut) (hd : d ∈ forecast_5day l) :
    ∃ m M : ℚ,
      m ∈ (bucket l d.date).map (fun s => s.temp_min) ∧
      (∀ x ∈ (bucket l d.date).map (fun s => s.temp_min), m ≤ x) ∧
      d.tmin = pythonRound m ∧
      M ∈ (bucket l d.date).map (fun s => s.temp_max) ∧
      (∀ x ∈ (bucket l d.date).map (fun s => s.temp_max), x ≤ M) ∧
      d.tmax = pythonRound M := by
  obtain ⟨hk, hsum⟩ := mem_forecast_5day l d hd
  have hb : bucket l d.date ≠ [] := bucket_ne_nil l d.date hk
  have hbm : (bucket l d.date).map (fun s => s.temp_min) ≠ [] := by
    simpa using hb
  have hbM : (bucket l d.date).map (fun s => s.temp_max) ≠ [] := by
    simpa using hb
  have htmin : d.tmin = pythonRound (pyMin ((bucket l d.date).map (fun s => s.temp_min))) := by
    conv_lhs => rw [hsum]
    rfl
  have htmax : d.tmax = pythonRound (pyMax ((bucket l d.date).map (fun s => s.temp_max))) := by
    conv_lhs => rw [hsum]
    rfl
  refine ⟨pyMin ((bucket l d.date).map (fun s => s.temp_min)),
          pyMax ((bucket l d.date).map (fun s => s.temp_max)), ?_, ?_, ?_, ?_, ?_, ?_⟩
  · exact pyMin_mem _ hbm
  · exact fun x hx => pyMin_le _ x hx
  · exact htmin
  · exact pyMax_mem _ hbM
  · exact fun x hx => pyMax_ge _ x hx
  · exact htmax

/-- Evaluation of the aggregator on one sample with `temp_min = 0.5` and
`temp_max = 2.5` (hour 0, so no noon pick): both halves round to even. -/
theorem forecast_eval_half :
    forecast_5day [⟨0, 1/2, 5/2, "01d", "clear sky"⟩] =
      [⟨0, 0, 2, "01d", "Clear Sky"⟩] := by
  rw [forecast_5day, groupKeys]
  norm_num [firstSeen, firstSeenAux, dateKey, bucket, summarize, hourOf,
    most_common1, pickFirstMax, pyMin, pyMax, List.insertionSort,
    List.orderedInsert, titleCase, titleMap, Char.isAlpha, pythonRound]
  decide

/-- C3 counterexample to the claim as stated: Python's `round` rounds ties
to the even integer, not away from zero.  On a single sample with a slot
minimum of `0.5` and a slot maximum of `2.5`, the aggregated `tmin` is `0`
and `tmax` is `2`, while rounding "ties away from zero" would give `1` and
`3`. -/
theorem forecast_round_counterexample :
    (forecast_5day [⟨0, 1/2, 5/2, "01d", "clear sky"⟩]).map (fun d => d.tmin) = [0] ∧
    (forecast_5day [⟨0, 1/2, 5/2, "01d", "clear sky"⟩]).map (fun d => d.tmax) = [2] ∧
    roundAway (1/2) = 1 ∧ roundAway (5/2) = 3 ∧
    ((0 : ℤ) ≠ 1) ∧ ((2 : ℤ) ≠ 3) := by
  refine ⟨?_, ?_, ?_, ?_, by decide, by decide⟩
  · rw [forecast_eval_half]
    rfl
  · rw [forecast_eval_half]
    rfl
  · rw [roundAway]
    norm_num
  · rw [roundAway]
    norm_num

/-- Evaluation of the aggregator on one sample with integer temperatures,
used by the witness below. -/
theorem forecast_eval_int :
    forecast_5day [⟨0, 1, 2, "01d", "clear sky"⟩] =
      [⟨0, 1, 2, "01d", "Clear Sky"⟩] := by
  rw [forecast_5day, groupKeys]
  norm_num [firstSeen, firstSeenAux, dateKey, bucket, summarize, hourOf,
    most_common1, pickFirstMax, pyMin, pyMax, List.insertionSort,
    List.orderedInsert, titleCase, titleMap, Char.isAlpha, pythonRound]
  decide

/-- Witness for `forecast_minmax` at the one-sample input with temperatures
1 and 2. -/
theorem forecast_minmax_witness :
    ∃ m M : ℚ,
      m ∈ (bucket [⟨0, 1, 2, "01d", "clear sky"⟩]
            (DayOut.mk 0 1 2 "01d" "Clear Sky").date).map (fun s => s.temp_min) ∧
      (∀ x ∈ (bucket [⟨0, 1, 2, "01d", "clear sky"⟩]
            (DayOut.mk 0 1 2 "01d" "Clear Sky").date).map (fun s => s.temp_min), m ≤ x) ∧
      (DayOut.mk 0 1 2 "01d" "Clear Sky").tmin = pythonRound m ∧
      M ∈ (bucket [⟨0, 1, 2, "01d", "clear sky"⟩]
            (DayOut.mk 0 1 2 "01d" "Clear Sky").date).map (fun s => s.temp_max) ∧
      (∀ x ∈ (bucket [⟨0, 1, 2, "01d", "clear sky"⟩]
            (DayOut.mk 0 1 2 "01d" "Clear Sky").date).map (fun s => s.temp_max), x ≤ M) ∧
      (DayOut.mk 0 1 2 "01d" "Clear Sky").tmax = pythonRound M :=
  forecast_minmax [⟨0, 1, 2, "01d", "clear sky"⟩] (DayOut.mk 0 1 2 "01d" "Clear Sky")
    (by rw [forecast_eval_int]; exact List.mem_singleton.mpr rfl)

/-! ## Claims C4 and C9: the noon sample wins -/

/-- C4: whenever a date group contains a sample whose UTC hour is 12, the
group's icon is that sample's icon verbatim and its description that
sample's description title-cased — independent of the frequencies of the
other icons in the group. -/
theorem forecast_noon (l : List Sample) (d : DayOut) (hd : d ∈ forecast_5day l)
    (s : Sample) (hs : s ∈ bucket l d.date) (h12 : hourOf s = 12) :
    ∃ t ∈ bucket l d.date, hourOf t = 12 ∧
      d.icon = t.icon ∧ d.desc = titleCase t.description := by
  obtain ⟨hk, hsum⟩ := mem_forecast_5day l d hd
  cases hval : (bucket l d.date).find? (fun s => hourOf s = 12) with
  | none =>
    have := List.find?_eq_none.mp hval s hs
    simp [h12] at this
  | some t =>
    have htp : hourOf t = 12 := by simpa using List.find?_some hval
    have htmem : t ∈ bucket l d.date := List.mem_of_find?_eq_some hval
    refine ⟨t, htmem, htp, ?_, ?_⟩
    · conv_lhs => rw [hsum]
      show (summarize d.date (bucket l d.date)).icon = t.icon
      simp [summarize, hval]
    · conv_lhs => rw [hsum]
      show (summarize d.date (bucket l d.date)).desc = titleCase t.description
      simp [summarize, hval]

/-- C9: when a date group contains several hour-12 samples, the first one in
the group's input order is the one whose icon and description are used (the
`for` loop `break`s at the first match). -/
theorem forecast_noon_first (l : List Sample) (d : DayOut) (hd : d ∈ forecast_5day l)
    (s : Sample) (hs : s ∈ bucket l d.date) (h12 : hourOf s = 12) :
    ∃ pre t post, bucket l d.date = pre ++ t :: post ∧
      (∀ u ∈ pre, hourOf u ≠ 12) ∧ hourOf t = 12 ∧
      d.icon = t.icon ∧ d.desc = titleCase t.description := by
  obtain ⟨hk, hsum⟩ := mem_forecast_5day l d hd
  cases hval : (bucket l d.date).find? (fun s => hourOf s = 12) with
  | none =>
    have := List.find?_eq_none.mp hval s hs
    simp [h12] at this
  | some t =>
    obtain ⟨hpt, pre, post, hsplit, hpre⟩ := List.find?_eq_some.mp hval
    refine ⟨pre, t, post, hsplit, ?_, by simpa using hpt, ?_, ?_⟩
    · intro u hu
      have := hpre u hu
      simpa using this
    · conv_lhs => rw [hsum]
      show (summarize d.date (bucket l d.date)).icon = t.icon
      simp [summarize, hval]
    · conv_lhs => rw [hsum]
      show (summarize d.date (bucket l d.date)).desc = titleCase t.description
      simp [summarize, hval]

/-- Evaluation of the aggregator on a group with one noon (hour-12) sample:
the noon sample's icon wins even though the other icon is equally frequent. -/
theorem forecast_eval_noon :
    forecast_5day [⟨0, 1, 2, "02d", "few clouds"⟩, ⟨43200, 3, 4, "01d", "clear sky"⟩] =
      [⟨0, 1, 4, "01d", "Clear Sky"⟩] := by
  rw [forecast_5day, groupKeys]
  norm_num [firstSeen, firstSeenAux, dateKey, bucket, summarize, hourOf,
    most_common1, pickFirstMax, pyMin, pyMax, List.insertionSort,
    List.orderedInsert, titleCase, titleMap, Char.isAlpha, pythonRound,
    min_def, max_def]
  decide

/-- Witness for `forecast_noon`: in the two-sample group above, hour-12
sample `⟨43200, 3, 4, "01d", "clear sky"⟩` supplies icon and description. -/
theorem forecast_noon_witness :
    ∃ t ∈ bucket [⟨0, 1, 2, "02d", "few clouds"⟩, ⟨43200, 3, 4, "01d", "clear sky"⟩]
        (DayOut.mk 0 1 4 "01d" "Clear Sky").date, hourOf t = 12 ∧
      (DayOut.mk 0 1 4 "01d" "Clear Sky").icon = t.icon ∧
      (DayOut.mk 0 1 4 "01d" "Clear Sky").desc = titleCase t.description :=
  forecast_noon [⟨0, 1, 2, "02d", "few clouds"⟩, ⟨43200, 3, 4, "01d", "clear sky"⟩]
    (DayOut.mk 0 1 4 "01d" "Clear Sky")
    (by rw [forecast_eval_noon]; exact List.mem_singleton.mpr rfl)
    ⟨43200, 3, 4, "01d", "clear sky"⟩
    (by simp [bucket, dateKey]) rfl

/-- Evaluation of the aggregator on a group with two hour-12 samples: the
first one (`"01d"`) wins, not the later one (`"10d"`). -/
theorem forecast_eval_two_noon :
    forecast_5day [⟨0, 1, 2, "02d", "few clouds"⟩, ⟨43200, 3, 4, "01d", "clear sky"⟩,
        ⟨44000, 5, 6, "10d", "rain"⟩] =
      [⟨0, 1, 6, "01d", "Clear Sky"⟩] := by
  rw [forecast_5day, groupKeys]
  norm_num [firstSeen, firstSeenAux, dateKey, bucket, summarize, hourOf,
    most_common1, pickFirstMax, pyMin, pyMax, List.insertionSort,
    List.orderedInsert, titleCase, titleMap, Char.isAlpha, pythonRound,
    min_def, max_def]
  decide

/-- Witness for `forecast_noon_first`: with two hour-12 samples in the
group, the chosen sample is the earliest one in input order. -/
theorem forecast_noon_first_witness :
    ∃ pre t post,
      bucket [⟨0, 1, 2, "02d", "few clouds"⟩, ⟨43200, 3, 4, "01d", "clear sky"⟩,
          ⟨44000, 5, 6, "10d", "rain"⟩]
        (DayOut.mk 0 1 6 "01d" "Clear Sky").date = pre ++ t :: post ∧
      (∀ u ∈ pre, hourOf u ≠ 12) ∧ hourOf t = 12 ∧
      (DayOut.mk 0 1 6 "01d" "Clear Sky").icon = t.icon ∧
      (DayOut.mk 0 1 6 "01d" "Clear Sky").desc = titleCase t.description :=
  forecast_noon_first
    [⟨0, 1, 2, "02d", "few clouds"⟩, ⟨43200, 3, 4, "01d", "clear sky"⟩,
        ⟨44000, 5, 6, "10d", "rain"⟩]
    (DayOut.mk 0 1 6 "01d" "Clear Sky")
    (by rw [forecast_eval_two_noon]; exact List.mem_singleton.mpr rfl)
    ⟨44000, 5, 6, "10d", "rain"⟩
    (by simp [bucket, dateKey]) rfl

/-! ## Claim C5: most frequent icon, ties to the first encountered -/

theorem pickFirstMax_eq_none_iff {α : Type} (cnt : α → Nat) :
    ∀ (cs : List α), pickFirstMax cnt cs = none ↔ cs = []
  | [] => by simp [pickFirstMax]
  | c :: cs => by
    rw [pickFirstMax]
    cases pickFirstMax cnt cs with
    | none => simp
    | some b =>
      by_cases h : cnt c < cnt b <;> simp [h]

/-- Full specification of `pickFirstMax`: the result is an element of the
list, its count is maximal, and every element occurring strictly before it
has a strictly smaller count (so ties go to the earliest element). -/
theorem pickFirstMax_spec {α : Type} (cnt : α → Nat) :
    ∀ (cs : List α) (r : α), pickFirstMax cnt cs = some r →
      r ∈ cs ∧ (∀ b ∈ cs, cnt b ≤ cnt r) ∧
      ∃ pre post, cs = pre ++ r :: post ∧ ∀ b ∈ pre, cnt b < cnt r
  | [], r, h => by simp [pickFirstMax] at h
  | c :: cs, r, h => by
    rw [pickFirstMax] at h
    cases hrec : pickFirstMax cnt cs with
    | none =>
      rw [hrec] at h
      have hcs : cs = [] := (pickFirstMax_eq_none_iff cnt cs).mp hrec
      have hrc : r = c := by
        simpa using h.symm
      subst hrc
      subst hcs
      exact ⟨List.mem_cons_self r [], by simp,
             [], [], rfl, by simp⟩
    | some b =>
      rw [hrec] at h
      obtain ⟨hbmem, hbmax, pre', post', hsplit, hlt⟩ := pickFirstMax_spec cnt cs b hrec
      by_cases hcb : cnt c < cnt b
      · have hrb : r = b := by
          simp [hcb] at h
          exact h.symm
        subst hrb
        refine ⟨List.mem_cons_of_mem c hbmem, ?_, c :: pre', post', by rw [hsplit]; rfl, ?_⟩
        · intro x hx
          rcases List.mem_cons.mp hx with rfl | hx'
          · exact Nat.le_of_lt hcb
          · exact hbmax x hx'
        · intro x hx
          rcases List.mem_cons.mp hx with rfl | hx'
          · exact hcb
          · exact hlt x hx'
      · have hrc : r = c := by
          simp [hcb] at h
          exact h.symm
        subst hrc
        refine ⟨List.mem_cons_self r cs, ?_, [], cs, rfl, by simp⟩
        intro x hx
        rcases List.mem_cons.mp hx with rfl | hx'
        · exact Nat.le_refl _
        · exact Nat.le_trans (hbmax x hx') (Nat.le_of_not_lt hcb)

theorem most_common1_spec {α : Type} [DecidableEq α] (L : List α) (r : α)
    (h : most_common1 L = some r) :
    r ∈ L ∧ (∀ b ∈ L, L.count b ≤ L.count r) ∧
    ∃ pre post, L = pre ++ r :: post ∧ ∀ b ∈ pre, L.count b < L.count r :=
  pickFirstMax_spec (fun a => L.count a) L r h

theorem most_common1_ne_none {α : Type} [DecidableEq α] (L : List α)
    (hL : L ≠ []) : ∃ r, most_common1 L = some r := by
  cases h : most_common1 L with
  | none => exact absurd ((pickFirstMax_eq_none_iff (fun a => L.count a) L).mp h) hL
  | some r => exact ⟨r, rfl⟩

/-- C5: for a date group with no hour-12 sample, the representative icon is
the most frequent icon of the group and the representative description the
most frequent title-cased description, ties broken in favour of the value
first encountered in iteration order: the chosen value occurs in the list,
no value has a strictly greater count, and every value occurring before the
chosen value's first occurrence has a strictly smaller count. -/
theorem forecast_mode (l : List Sample) (d : DayOut) (hd : d ∈ forecast_5day l)
    (hno : ∀ s ∈ bucket l d.date, hourOf s ≠ 12) :
    (d.icon ∈ (bucket l d.date).map (fun s => s.icon) ∧
     (∀ b ∈ (bucket l d.date).map (fun s => s.icon),
        ((bucket l d.date).map (fun s => s.icon)).count b ≤
          ((bucket l d.date).map (fun s => s.icon)).count d.icon) ∧
     (∃ pre post, (bucket l d.date).map (fun s => s.icon) = pre ++ d.icon :: post ∧
        ∀ b ∈ pre, ((bucket l d.date).map (fun s => s.icon)).count b <
          ((bucket l d.date).map (fun s => s.icon)).count d.icon)) ∧
    (d.desc ∈ (bucket l d.date).map (fun s => titleCase s.description) ∧
     (∀ b ∈ (bucket l d.date).map (fun s => titleCase s.description),
        ((bucket l d.date).map (fun s => titleCase s.description)).count b ≤
          ((bucket l d.date).map (fun s => titleCase s.description)).count d.desc) ∧
     (∃ pre post, (bucket l d.date).map (fun s => titleCase s.description) =
          pre ++ d.desc :: post ∧
        ∀ b ∈ pre, ((bucket l d.date).map (fun s => titleCase s.description)).count b <
          ((bucket l d.date).map (fun s => titleCase s.description)).count d.desc)) := by
  obtain ⟨hk, hsum⟩ := mem_forecast_5day l d hd
  have hb : bucket l d.date ≠ [] := bucket_ne_nil l d.date hk
  have hfind : (bucket l d.date).find? (fun s => hourOf s = 12) = none :=
    List.find?_eq_none.mpr (fun x hx => by simp [hno x hx])
  constructor
  · have hne : (bucket l d.date).map (fun s => s.icon) ≠ [] := by
      simpa using hb
    obtain ⟨ri, hri⟩ := most_common1_ne_none ((bucket l d.date).map (fun s => s.icon)) hne
    have hicon : d.icon = ri := by
      conv_lhs => rw [hsum]
      show (summarize d.date (bucket l d.date)).icon = ri
      simp [summarize, hfind, hri]
    rw [hicon]
    exact most_common1_spec _ ri hri
  · have hne : (bucket l d.date).map (fun s => titleCase s.description) ≠ [] := by
      simpa using hb
    obtain ⟨rd, hrd⟩ :=
      most_common1_ne_none ((bucket l d.date).map (fun s => titleCase s.description)) hne
    have hdesc : d.desc = rd := by
      conv_lhs => rw [hsum]
      show (summarize d.date (bucket l d.date)).desc = rd
      simp [summarize, hfind, hrd]
    rw [hdesc]
    exact most_common1_spec _ rd hrd

/-- Evaluation of the aggregator on a no-noon group with icons
`["a", "a", "b"]`: the icon `"a"` is chosen. -/
theorem forecast_eval_mode :
    forecast_5day [⟨0, 1, 2, "a", "x"⟩, ⟨10800, 1, 2, "a", "x"⟩,
        ⟨21600, 1, 2, "b", "y"⟩] = [⟨0, 1, 2, "a", "X"⟩] := by
  rw [forecast_5day, groupKeys]
  norm_num [firstSeen, firstSeenAux, dateKey, bucket, summarize, hourOf,
    most_common1, pickFirstMax, pyMin, pyMax, List.insertionSort,
    List.orderedInsert, titleCase, titleMap, Char.isAlpha, pythonRound,
    min_def, max_def]
  decide

/-- Witness for `forecast_mode`: the `[a, a, b]` group of the claim — the
chosen icon is `"a"` and it satisfies the most-frequent/first-encountered
characterisation. -/
theorem forecast_mode_witness :
    ((DayOut.mk 0 1 2 "a" "X").icon ∈
       (bucket [⟨0, 1, 2, "a", "x"⟩, ⟨10800, 1, 2, "a", "x"⟩, ⟨21600, 1, 2, "b", "y"⟩]
         (DayOut.mk 0 1 2 "a" "X").date).map (fun s => s.icon) ∧
     (∀ b ∈ (bucket [⟨0, 1, 2, "a", "x"⟩, ⟨10800, 1, 2, "a", "x"⟩, ⟨21600, 1, 2, "b", "y"⟩]
         (DayOut.mk 0 1 2 "a" "X").date).map (fun s => s.icon),
        ((bucket [⟨0, 1, 2, "a", "x"⟩, ⟨10800, 1, 2, "a", "x"⟩, ⟨21600, 1, 2, "b", "y"⟩]
         (DayOut.mk 0 1 2 "a" "X").date).map (fun s => s.icon)).count b ≤
          ((bucket [⟨0, 1, 2, "a", "x"⟩, ⟨10800, 1, 2, "a", "x"⟩, ⟨21600, 1, 2, "b", "y"⟩]
         (DayOut.mk 0 1 2 "a" "X").date).map (fun s => s.icon)).count
            (DayOut.mk 0 1 2 "a" "X").icon) ∧
     (∃ pre post,
        (bucket [⟨0, 1, 2, "a", "x"⟩, ⟨10800, 1, 2, "a", "x"⟩, ⟨21600, 1, 2, "b", "y"⟩]
         (DayOut.mk 0 1 2 "a" "X").date).map (fun s => s.icon) =
            pre ++ (DayOut.mk 0 1 2 "a" "X").icon :: post ∧
        ∀ b ∈ pre,
          ((bucket [⟨0, 1, 2, "a", "x"⟩, ⟨10800, 1, 2, "a", "x"⟩, ⟨21600, 1, 2, "b", "y"⟩]
         (DayOut.mk 0 1 2 "a" "X").date).map (fun s => s.icon)).count b <
            ((bucket [⟨0, 1, 2, "a", "x"⟩, ⟨10800, 1, 2, "a", "x"⟩, ⟨21600, 1, 2, "b", "y"⟩]
         (DayOut.mk 0 1 2 "a" "X").date).map (fun s => s.icon)).count
              (DayOut.mk 0 1 2 "a" "X").icon)) ∧
    ((DayOut.mk 0 1 2 "a" "X").desc ∈
       (bucket [⟨0, 1, 2, "a", "x"⟩, ⟨10800, 1, 2, "a", "x"⟩, ⟨21600, 1, 2, "b", "y"⟩]
         (DayOut.mk 0 1 2 "a" "X").date).map (fun s => titleCase s.description) ∧
     (∀ b ∈ (bucket [⟨0, 1, 2, "a", "x"⟩, ⟨10800, 1, 2, "a", "x"⟩, ⟨21600, 1, 2, "b", "y"⟩]
         (DayOut.mk 0 1 2 "a" "X").date).map (fun s => titleCase s.description),
        ((bucket [⟨0, 1, 2, "a", "x"⟩, ⟨10800, 1, 2, "a", "x"⟩, ⟨21600, 1, 2, "b", "y"⟩]
         (DayOut.mk 0 1 2 "a" "X").date).map (fun s => titleCase s.description)).count b ≤
          ((bucket [⟨0, 1, 2, "a", "x"⟩, ⟨10800, 1, 2, "a", "x"⟩, ⟨21600, 1, 2, "b", "y"⟩]
         (DayOut.mk 0 1 2 "a" "X").date).map (fun s => titleCase s.description)).count
            (DayOut.mk 0 1 2 "a" "X").desc) ∧
     (∃ pre post,
        (bucket [⟨0, 1, 2, "a", "x"⟩, ⟨10800, 1, 2, "a", "x"⟩, ⟨21600, 1, 2, "b", "y"⟩]
         (DayOut.mk 0 1 2 "a" "X").date).map (fun s => titleCase s.description) =
            pre ++ (DayOut.mk 0 1 2 "a" "X").desc :: post ∧
        ∀ b ∈ pre,
          ((bucket [⟨0, 1, 2, "a", "x"⟩, ⟨10800, 1, 2, "a", "x"⟩, ⟨21600, 1, 2, "b", "y"⟩]
         (DayOut.mk 0 1 2 "a" "X").date).map (fun s => titleCase s.description)).count b <
            ((bucket [⟨0, 1, 2, "a", "x"⟩, ⟨10800, 1, 2, "a", "x"⟩, ⟨21600, 1, 2, "b", "y"⟩]
         (DayOut.mk 0 1 2 "a" "X").date).map (fun s => titleCase s.description)).count
              (DayOut.mk 0 1 2 "a" "X").desc)) :=
  forecast_mode [⟨0, 1, 2, "a", "x"⟩, ⟨10800, 1, 2, "a", "x"⟩, ⟨21600, 1, 2, "b", "y"⟩]
    (DayOut.mk 0 1 2 "a" "X")
    (by rw [forecast_eval_mode]; exact List.mem_singleton.mpr rfl)
    (by
      intro s hs
      simp only [bucket, dateKey] at hs
      norm_num at hs
      rcases hs with rfl | rfl | rfl <;> decide)

/-! ## Claim C10: `save_qr` never overwrites -/

theorem str_append_cancel_left (a b c : String) (h : a ++ b = a ++ c) : b = c := by
  apply String.ext
  have hd := congrArg String.data h
  simp only [String.data_append] at hd
  exact List.append_cancel_left hd

theorem str_append_cancel_right (a b c : String) (h : b ++ a = c ++ a) : b = c := by
  apply String.ext
  have hd := congrArg String.data h
  simp only [String.data_append] at hd
  exact List.append_cancel_right hd

theorem decChar_inj {a b : Nat} (ha : a < 10) (hb : b < 10)
    (h : decChar a = decChar b) : a = b := by
  interval_cases a <;> interval_cases b <;> revert h <;> decide

theorem map_decChar_inj : ∀ (xs ys : List Nat), (∀ x ∈ xs, x < 10) →
    (∀ y ∈ ys, y < 10) → xs.map decChar = ys.map decChar → xs = ys
  | [], [], _, _, _ => rfl
  | [], _ :: _, _, _, h => by simp at h
  | _ :: _, [], _, _, h => by simp at h
  | x :: xs, y :: ys, hx, hy, h => by
    simp only [List.map_cons, List.cons.injEq] at h
    have h1 : x = y :=
      decChar_inj (hx x (List.mem_cons_self x xs)) (hy y (List.mem_cons_self y ys)) h.1
    have h2 : xs = ys :=
      map_decChar_inj xs ys (fun z hz => hx z (List.mem_cons_of_mem x hz))
        (fun z hz => hy z (List.mem_cons_of_mem y hz)) h.2
    rw [h1, h2]

theorem decStr_inj : ∀ {m n : Nat}, decStr m = decStr n → m = n := by
  have key : ∀ n : Nat, n ≠ 0 → decStr n ≠ "0" := by
    intro n hn hcon
    rw [decStr, if_neg hn] at hcon
    have hd := congrArg String.data hcon
    simp only at hd
    have hrev := congrArg List.reverse hd
    rw [List.reverse_reverse] at hrev
    -- hrev : (Nat.digits 10 n).map decChar = ['0'].reverse = ['0']
    have hdig : Nat.digits 10 n = [0] := by
      have := map_decChar_inj (Nat.digits 10 n) [0]
        (fun x hx => Nat.digits_lt_base (by norm_num) hx)
        (by intro y hy; simp at hy; omega)
        (by rw [hrev]; rfl)
      exact this
    have := Nat.ofDigits_digits 10 n
    rw [hdig] at this
    simp [Nat.ofDigits] at this
    exact hn this.symm
  intro m n h
  by_cases hm : m = 0 <;> by_cases hn : n = 0
  · rw [hm, hn]
  · subst hm
    exact absurd h.symm (key n hn)
  · subst hn
    exact absurd h (key m hm)
  · rw [decStr, if_neg hm, decStr, if_neg hn] at h
    have hd : (((Nat.digits 10 m).map decChar).reverse : List Char) =
        ((Nat.digits 10 n).map decChar).reverse := by
      have := congrArg String.data h
      simpa using this
    have hrev := congrArg List.reverse hd
    rw [List.reverse_reverse, List.reverse_reverse] at hrev
    have hdig : Nat.digits 10 m = Nat.digits 10 n :=
      map_decChar_inj _ _ (fun x hx => Nat.digits_lt_base (by norm_num) hx)
        (fun x hx => Nat.digits_lt_base (by norm_num) hx) hrev
    exact Nat.digits.injective 10 hdig

theorem qrPath_inj (dir base ext : String) : ∀ {m n : Nat},
    qrPath dir base ext m = qrPath dir base ext n → m = n := by
  have suffixed : ∀ k : Nat, k ≠ 0 →
      qrPath dir base ext k =
        dir ++ "/" ++ base ++ "_" ++ decStr k ++ "." ++ ext := by
    intro k hk
    rw [qrPath, if_neg hk]
  have base0 : qrPath dir base ext 0 = dir ++ "/" ++ base ++ "." ++ ext := rfl
  intro m n h
  by_cases hm : m = 0 <;> by_cases hn : n = 0
  · rw [hm, hn]
  · exfalso
    rw [hm, base0, suffixed n hn] at h
    have h1 := str_append_cancel_right ext _ _ h
    have h2 := str_append_cancel_right "." _ _ h1
    have hlen := congrArg String.length h2
    simp only [String.length_append] at hlen
    have h3 : (decStr n) ≠ "" := by
      intro hcon
      rw [decStr] at hcon
      by_cases hz : n = 0
      · exact hn hz
      · rw [if_neg hz] at hcon
        have := congrArg String.data hcon
        simp only at this
        have := congrArg List.length this
        simp only [List.length_reverse, List.length_map] at this
        exact Nat.digits_ne_nil_iff_ne_zero.mpr hz (List.length_eq_zero.mp this)
    have h4 : 0 < (decStr n).length := by
      cases hq : (decStr n).data with
      | nil => exact absurd (String.ext hq) h3
      | cons c cs =>
        show 0 < (decStr n).data.length
        rw [hq]
        simp
    omega
  · exfalso
    rw [hn, base0, suffixed m hm] at h
    have h1 := str_append_cancel_right ext _ _ h
    have h2 := str_append_cancel_right "." _ _ h1
    have hlen := congrArg String.length h2
    simp only [String.length_append] at hlen
    have h3 : (decStr m) ≠ "" := by
      intro hcon
      rw [decStr] at hcon
      by_cases hz : m = 0
      · exact hm hz
      · rw [if_neg hz] at hcon
        have := congrArg String.data hcon
        simp only at this
        have := congrArg List.length this
        simp only [List.length_reverse, List.length_map] at this
        exact Nat.digits_ne_nil_iff_ne_zero.mpr hz (List.length_eq_zero.mp this)
    have h4 : 0 < (decStr m).length := by
      cases hq : (decStr m).data with
      | nil => exact absurd (String.ext hq) h3
      | cons c cs =>
        show 0 < (decStr m).data.length
        rw [hq]
        simp
    omega
  · rw [suffixed m hm, suffixed n hn] at h
    have h1 := str_append_cancel_right ext _ _ h
    have h2 := str_append_cancel_right "." _ _ h1
    exact decStr_inj (str_append_cancel_left (dir ++ "/" ++ base ++ "_") _ _ h2)

/-- Pigeonhole: among the first `occupied.length + 1` candidate paths (all
distinct by `qrPath_inj`), at least one is not occupied. -/
theorem exists_free_qrPath (occupied : List String) (dir base ext : String) :
    ∃ n, n ≤ occupied.length ∧ qrPath dir base ext n ∉ occupied := by
  by_contra hcon
  push_neg at hcon
  have hinj : Function.Injective (fun n => qrPath dir base ext n) :=
    fun _ _ h => qrPath_inj dir base ext h
  have hsub : (Finset.range (occupied.length + 1)).image
      (fun n => qrPath dir base ext n) ⊆ occupied.toFinset := by
    intro x hx
    rcases Finset.mem_image.mp hx with ⟨n, hn, rfl⟩
    exact List.mem_toFinset.mpr (hcon n (Nat.lt_succ_iff.mp (Finset.mem_range.mp hn)))
  have hcard := Finset.card_le_card hsub
  rw [Finset.card_image_of_injective _ hinj, Finset.card_range] at hcard
  have hlen : occupied.toFinset.card ≤ occupied.length := occupied.toFinset_card_le
  omega

theorem save_qr_go_sound (occupied : List String) (dir base ext : String) :
    ∀ (fuel c : Nat) (p : String), save_qr_go occupied dir base ext fuel c = some p →
      ∃ n, c ≤ n ∧ p = qrPath dir base ext n ∧ qrPath dir base ext n ∉ occupied ∧
        ∀ m, c ≤ m → m < n → qrPath dir base ext m ∈ occupied
  | 0, c, p, h => by simp [save_qr_go] at h
  | fuel + 1, c, p, h => by
    rw [save_qr_go] at h
    by_cases hc : qrPath dir base ext c ∈ occupied
    · rw [if_pos hc] at h
      obtain ⟨n, hcn, hp, hfree, hall⟩ :=
        save_qr_go_sound occupied dir base ext fuel (c + 1) p h
      refine ⟨n, Nat.le_of_succ_le hcn, hp, hfree, ?_⟩
      intro m hm1 hm2
      rcases Nat.eq_or_lt_of_le hm1 with rfl | hlt
      · exact hc
      · exact hall m hlt hm2
    · rw [if_neg hc] at h
      have hp : p = qrPath dir base ext c := by simpa using h.symm
      exact ⟨c, Nat.le_refl c, hp, hc,
        fun m hm1 hm2 => absurd (Nat.lt_of_le_of_lt hm1 hm2) (Nat.lt_irrefl c)⟩

theorem save_qr_go_complete (occupied : List String) (dir base ext : String) :
    ∀ (fuel c : Nat), (∃ n, c ≤ n ∧ n < c + fuel ∧ qrPath dir base ext n ∉ occupied) →
      ∃ p, save_qr_go occupied dir base ext fuel c = some p
  | 0, c, h => by
    obtain ⟨n, h1, h2, _⟩ := h
    omega
  | fuel + 1, c, h => by
    obtain ⟨n, h1, h2, hfree⟩ := h
    rw [save_qr_go]
    by_cases hc : qrPath dir base ext c ∈ occupied
    · rw [if_pos hc]
      apply save_qr_go_complete occupied dir base ext fuel (c + 1)
      refine ⟨n, ?_, by omega, hfree⟩
      rcases Nat.eq_or_lt_of_le h1 with rfl | hlt
      · exact absurd hc hfree
      · exact hlt
    · exact ⟨_, by rw [if_neg hc]⟩

/-- C10: `save_qr` never overwrites an existing file.  The path it saves to
always exists (the Python `while` loop terminates because only finitely many
paths exist): it is `base.ext` if free, and otherwise `base_n.ext` for the
first counter `n` whose candidate does not exist — every earlier candidate
(including the unsuffixed one) was occupied. -/
theorem save_qr_never_overwrites (occupied : List String) (dir base ext : String) :
    ∃ p, save_qr_path occupied dir base ext = some p ∧ p ∉ occupied ∧
      ∃ n, p = qrPath dir base ext n ∧ ∀ m, m < n → qrPath dir base ext m ∈ occupied := by
  obtain ⟨n, hn, hfree⟩ := exists_free_qrPath occupied dir base ext
  obtain ⟨p, hp⟩ := save_qr_go_complete occupied dir base ext (occupied.length + 1) 0
    ⟨n, Nat.zero_le n, by omega, hfree⟩
  obtain ⟨n', _, hpeq, hfree', hall⟩ :=
    save_qr_go_sound occupied dir base ext (occupied.length + 1) 0 p hp
  refine ⟨p, hp, ?_, n', hpeq, fun m hm => hall m (Nat.zero_le m) hm⟩
  rw [hpeq]
  exact hfree'
